import Mathlib

set_option maxHeartbeats 1000000

/-
  Verification development for the CryptoPanic news scraper
  (news_scraper.py, api_news_scraper.py).

  The Python code is shallowly embedded: pure helper functions become Lean
  functions on List Char / String; the browser, the HTTP client and the
  filesystem are abstract environments, modelled as explicit inputs (per
  iteration marker bits, rendered-element counts, navigation outcomes, HTTP
  outcomes, filesystem states); loops become fuel-indexed recursive
  functions; Python dicts become association lists with insertion-order
  overwrite semantics, or functions to Option when only the mapping matters.
-/

namespace Cryptopanic

/-- Python dict assignment d[k] = v: overwrite in place when the key is
already present, otherwise append at the end (Python dicts preserve
insertion order). -/
def dictInsert {α : Type} (d : List (String × α)) (k : String) (v : α) :
    List (String × α) :=
  if d.any (fun p => p.1 == k) then
    d.map (fun p => if p.1 == k then (k, v) else p)
  else d ++ [(k, v)]

/-- Python dict lookup d.get(k): first binding of the key, if any. -/
def dictFind {α : Type} (d : List (String × α)) (k : String) : Option α :=
  (d.find? (fun p => p.1 == k)).map (fun p => p.2)

/-- Python str.startswith on character lists: first argument the string,
second the candidate leading piece. -/
def pyStartsWith : List Char → List Char → Bool
| _, [] => true
| [], _ :: _ => false
| c :: cs, p :: ps => if c = p then pyStartsWith cs ps else false

/-
  C10: NewsArticleScraper._build_redirect_url.
  Python: re.search of /news/(\d+)/ in the url; on a match the result is
  "/news/click/" + group(1) + "/", otherwise the url unchanged.
  re.search scans left to right and at each position the digit run is the
  maximal one (a shorter run would leave a digit where the pattern needs a
  slash, so no backtracking case survives).
-/

/-- Literal characters of the pattern fragment "/news/". -/
def newsLit : List Char := ['/', 'n', 'e', 'w', 's', '/']

/-- Literal characters of "/news/click/". -/
def newsClickLit : List Char :=
  ['/', 'n', 'e', 'w', 's', '/', 'c', 'l', 'i', 'c', 'k', '/']

/-- Match a literal character sequence at the head of a list, returning the
remainder on success. -/
def expectChars : List Char → List Char → Option (List Char)
| [], l => some l
| _ :: _, [] => none
| e :: es, c :: rest => if c = e then expectChars es rest else none

/-- Try the regex /news/(\d+)/ anchored at the head of the list: the literal
"/news/", then a nonempty maximal digit run, then a slash.  Returns the
digit run on success. -/
def matchNewsAt (l : List Char) : Option (List Char) :=
  match expectChars newsLit l with
  | none => none
  | some rest =>
    let ds := rest.takeWhile Char.isDigit
    if ds.isEmpty then none
    else
      match rest.dropWhile Char.isDigit with
      | '/' :: _ => some ds
      | _ => none

/-- re.search of /news/(\d+)/: leftmost position wins. -/
def findNewsId : List Char → Option (List Char)
| [] => none
| c :: rest =>
  match matchNewsAt (c :: rest) with
  | some ds => some ds
  | none => findNewsId rest

/-- NewsArticleScraper._build_redirect_url from news_scraper.py. -/
def buildRedirectUrl (url : String) : String :=
  match findNewsId url.data with
  | some ds => "/news/click/" ++ String.mk ds ++ "/"
  | none => url

/-
  C2: vote parsing.
  news_scraper.py (_get_votes and the bulk _EXTRACT_ALL_JS script) matches
  the title attribute of each span.nc-vote-cont against the regex
  (anchored at both ends)  \s*(\d+)\s+(.+?)\s+votes?\s*$  and stores
  group(2) -> int(group(1)) in the votes dict; non-matching attributes add
  nothing.
  The regex is embedded directly, reproducing the engine semantics of this
  concrete pattern: the leading \s* and the greedy \d+ allow no
  backtracking (a digit can never be re-matched by \s and vice versa), the
  \s+ after the digits is tried greedily and gives characters back to the
  lazy group (.+?) on failure since the dot matches every character except
  the newline, the group is expanded lazily, and the tail \s+votes?\s*$ is
  deterministic.  ASCII semantics: \s is [ \t\n\r\x0b\x0c] and \d is [0-9];
  the Unicode-only extensions of the Python classes are out of scope.
-/

/-- Python \s on ASCII: space, tab, newline, carriage return, vertical tab,
form feed. -/
def isPySpace (c : Char) : Bool :=
  c = ' ' || c = '\t' || c = '\n' || c = '\r' ||
  c = Char.ofNat 11 || c = Char.ofNat 12

/-- Value of a nonempty decimal digit string, as Python int() computes it on
the regex group. -/
def digitsToNat (ds : List Char) : Nat :=
  ds.foldl (fun n c => n * 10 + (c.toNat - '0'.toNat)) 0

/-- Match the regex fragment votes?\s*$ : the literal "vote", an optional
"s", then only whitespace to the end. -/
def matchVoteWord : List Char → Bool
| 'v' :: 'o' :: 't' :: 'e' :: rest =>
  match rest with
  | 's' :: rest2 => rest2.all isPySpace
  | _ => rest.all isPySpace
| _ => false

/-- Match the regex fragment \s+votes?\s*$ : at least one whitespace
character, then the vote word.  Greedy \s+ needs no backtracking here
because the word starts with a non-whitespace character. -/
def matchVoteTail (l : List Char) : Bool :=
  match l with
  | [] => false
  | c :: _ => isPySpace c && matchVoteWord (l.dropWhile isPySpace)

/-- Lazy expansion of the group (.+?): try candidate groups of length
1, 2, ... (the dot never matches a newline) until the remainder of the
input satisfies matchVoteTail; the first success is the captured group. -/
def findLazyGroup : List Char → List Char → Option (List Char)
| _, [] => none
| acc, c :: rest =>
  if c = '\n' then none
  else if matchVoteTail rest then some (acc ++ [c])
  else findLazyGroup (acc ++ [c]) rest

/-- Backtracking over how many characters of the whitespace run after the
digits are consumed by \s+ : j characters are tried first with j maximal
(greedy), handing the remaining run over to the lazy group. -/
def findGroupFrom : Nat → List Char → List Char → Option (List Char)
| 0, _, _ => none
| j + 1, spaces, rest =>
  match findLazyGroup [] (spaces.drop (j + 1) ++ rest) with
  | some g => some g
  | none => findGroupFrom j spaces rest

/-- Full match of  \s*(\d+)\s+(.+?)\s+votes?\s*$  against a title
attribute, returning (group 2, int(group 1)) on success.  The strip() the
Python code applies before re.match is absorbed by the leading \s* and the
trailing \s*$. -/
def parseVoteTitle (s : String) : Option (String × Nat) :=
  let l := s.data.dropWhile isPySpace
  let digits := l.takeWhile Char.isDigit
  let r1 := l.dropWhile Char.isDigit
  if digits.isEmpty then none
  else
    let spaces := r1.takeWhile isPySpace
    let rest := r1.dropWhile isPySpace
    if spaces.isEmpty then none
    else
      match findGroupFrom spaces.length spaces rest with
      | some g => some (String.mk g, digitsToNat digits)
      | none => none

/-- One step of the _get_votes loop of news_scraper.py: the title attribute
of one span.nc-vote-cont node (none models a missing attribute).  A falsy
attribute is skipped, a matching one stores group(2) -> int(group(1)),
a non-matching one adds nothing. -/
def getVotesStep (votes : List (String × Nat)) (attr : Option String) :
    List (String × Nat) :=
  match attr with
  | none => votes
  | some t =>
    if t = "" then votes
    else
      match parseVoteTitle t with
      | some (l, n) => dictInsert votes l n
      | none => votes

/-- NewsArticleScraper._get_votes over the list of vote-container title
attributes. -/
def getVotes (attrs : List (Option String)) : List (String × Nat) :=
  attrs.foldl getVotesStep []

/-
  The OTHER vote parser cited by the claim: CryptoPanicScraper.get_votes in
  api_news_scraper.py.  It does not use the regex; per attribute it runs
    value = vote_title[:2]
    action = vote_title.replace(value, "").replace("votes", "").strip()
    votes[action] = int(value)
  inside a try that wraps the whole loop, so an int() failure aborts the
  remaining attributes and returns the votes collected so far.
-/

/-- Strip leading and trailing ASCII whitespace, as Python str.strip(). -/
def pyStrip (l : List Char) : List Char :=
  ((l.dropWhile isPySpace).reverse.dropWhile isPySpace).reverse

/-- Fuel-driven worker for removing every occurrence of a pattern,
left to right and non-overlapping, as Python str.replace(pat, "").  The
fuel is the length of the input, which one step always shrinks by at least
one character. -/
def removeAllOccF (pat : List Char) : Nat → List Char → List Char
| 0, l => l
| _ + 1, [] => []
| fuel + 1, c :: rest =>
  if !pat.isEmpty && pyStartsWith (c :: rest) pat then
    removeAllOccF pat fuel (List.drop (pat.length - 1) rest)
  else c :: removeAllOccF pat fuel rest

/-- Python str.replace(pat, "") on character lists. -/
def removeAllOcc (pat l : List Char) : List Char :=
  removeAllOccF pat l.length l

/-- Python int() applied to a short string: strip whitespace, an optional
sign, then a nonempty digit string; anything else raises ValueError,
modelled as none.  (Underscore digit grouping is not modelled; the sliced
two-character operands of get_votes never contain it.) -/
def pyIntDigits (ds : List Char) : Option Nat :=
  if !ds.isEmpty && ds.all Char.isDigit then some (digitsToNat ds) else none

def pyInt (l : List Char) : Option Int :=
  match pyStrip l with
  | '-' :: ds => (pyIntDigits ds).map (fun n => -(n : Int))
  | '+' :: ds => (pyIntDigits ds).map (fun n => (n : Int))
  | ds => (pyIntDigits ds).map (fun n => (n : Int))

/-- The body of one CryptoPanicScraper.get_votes loop iteration: the label
and count it would store, or none when int(value) raises. -/
def apiVoteEntry (t : String) : Option (String × Int) :=
  let value := t.data.take 2
  let action := pyStrip (removeAllOcc ("votes".data) (removeAllOcc value t.data))
  (pyInt value).map (fun n => (String.mk action, n))

/-- CryptoPanicScraper.get_votes of api_news_scraper.py over the title
attributes: falsy attributes are skipped, each other attribute stores
action -> int(value), and an int() failure ends the loop early because the
try/except wraps the whole loop. -/
def apiGetVotes : List (Option String) → List (String × Int) →
    List (String × Int)
| [], acc => acc
| attr :: rest, acc =>
  match attr with
  | none => apiGetVotes rest acc
  | some t =>
    if t = "" then apiGetVotes rest acc
    else
      match apiVoteEntry t with
      | some (l, n) => apiGetVotes rest (dictInsert acc l n)
      | none => acc

/-
  C3: NewsArticleScraper._bypass_cloudflare.
  The loop runs attempt = 1 .. _CF_MAX_ATTEMPTS.  Each attempt polls for the
  ".ray-id" challenge marker (any exception counts as marker absent); when
  the marker is absent the method returns at once; when present it sleeps 5
  seconds, invokes verify_cf and retries.  When the loop ends with the
  marker still present the method saves a screenshot and raises
  RuntimeError.  The marker observations are an abstract environment, modelled
  as a function from the 1-based attempt number to a Bool.
-/

inductive CFResult
| ok
| challengeFailed
deriving DecidableEq

/-- Observable trace of one _bypass_cloudflare call: how many attempts ran,
how many sleep-and-verify rounds happened, whether the diagnostic screenshot
was captured, and the outcome. -/
structure CFTrace where
  attempts : Nat
  solves : Nat
  screenshot : Bool
  result : CFResult
deriving DecidableEq

/-- The _CF_MAX_ATTEMPTS constant of news_scraper.py. -/
def cfMaxAttempts : Nat := 5

/-- The attempt loop of _bypass_cloudflare: first argument is the remaining
attempt budget, then attempts already made and sleep-and-verify rounds
already made. -/
def bypassCFGo (m : Nat → Bool) : Nat → Nat → Nat → CFTrace
| 0, done, solves => ⟨done, solves, true, CFResult.challengeFailed⟩
| k + 1, done, solves =>
  if m (done + 1) then bypassCFGo m k (done + 1) (solves + 1)
  else ⟨done + 1, solves, false, CFResult.ok⟩

/-- NewsArticleScraper._bypass_cloudflare. -/
def bypassCF (m : Nat → Bool) : CFTrace :=
  bypassCFGo m cfMaxAttempts 0 0

/-
  C1: NewsArticleScraper._scroll_and_collect, the scroll loop only.
  Per iteration: scroll, pause, best-effort "Load more" click, count the
  rendered div.news-row.news-row-link elements; if the count equals the
  previous iteration's count the stale counter is incremented and the loop
  breaks once it reaches max_retries, otherwise the stale counter resets to
  zero; then previous_count is updated and the all-loaded marker is polled,
  breaking when present.  The page is an abstract environment, modelled by the
  rendered count c i and the marker bit mrk i of iteration i (0-based).
-/

inductive StopReason
| staleExhausted
| allLoaded
deriving DecidableEq


/-- One loop iteration of _scroll_and_collect.  The state is the pair
(stale_count, previous_count); the result is either the next state or the
reason the loop broke. -/
def scrollStep (maxRetries current : Nat) (marker : Bool) (st : Nat × Nat) :
    (Nat × Nat) ⊕ StopReason :=
  if current = st.2 then
    if maxRetries ≤ st.1 + 1 then Sum.inr StopReason.staleExhausted
    else if marker then Sum.inr StopReason.allLoaded
    else Sum.inl (st.1 + 1, current)
  else
    if marker then Sum.inr StopReason.allLoaded
    else Sum.inl (0, current)

/-- The while-True loop of _scroll_and_collect, driven by fuel; returns the
number of iterations executed and the break reason, or none when the fuel
runs out before the loop breaks.  The iteration index i is 0-based. -/
def scrollRun (maxRetries : Nat) (c : Nat → Nat) (mrk : Nat → Bool) :
    Nat → (Nat × Nat) → Nat → Option (Nat × StopReason)
| 0, _, _ => none
| fuel + 1, st, i =>
  match scrollStep maxRetries (c i) (mrk i) st with
  | Sum.inr r => some (i + 1, r)
  | Sum.inl st2 => scrollRun maxRetries c mrk fuel st2 (i + 1)

/-
  C4 and C5: _open_redirect_page (a closure inside open_all_redirect_urls)
  and read_with_jina_api, both in news_scraper.py, plus the helpers
  _strip_single_prefix and _find_source_config.
-/

/-- A title_css_path or text_css_path value from formatted_sources.json:
some sources use a string, others a list (the code normalises both). -/
inductive CssPaths
| single (s : String)
| several (l : List String)
deriving DecidableEq

/-- One entry of the formatted-sources config.  config.get("skip") is
modelled as a Bool (absent counts as falsy), the css path fields with their
get(..., "") defaults. -/
structure SourceConfig where
  skip : Bool
  title_css_path : CssPaths
  text_css_path : CssPaths
  ignore_css_path : String
deriving DecidableEq

/-- The normalisation in read_with_jina_api: a string becomes a one-element
list when truthy and an empty list otherwise; a list is kept. -/
def normalizePaths : CssPaths → List String
| CssPaths.single s => if s = "" then [] else [s]
| CssPaths.several l => l

/-- The subdomain prefix list shared by _remove_site_prefixes and
_strip_single_prefix. -/
def sitePrefixList : List String :=
  ["www.", "en.", "news.", "feeds2.", "daily.", "square."]

/-- NewsArticleScraper._strip_single_prefix: one sequential pass over the
prefix list, slicing off each leading piece the current domain starts
with (Python domain[len(p):]). -/
def stripSitePrefixes (domain : String) : String :=
  sitePrefixList.foldl
    (fun d p =>
      if pyStartsWith d.data p.data then String.mk (d.data.drop p.data.length)
      else d) domain

/-- NewsArticleScraper._find_source_config: first config whose stripped key
equals the stripped source domain; dict iteration order is insertion
order, modelled by the list order. -/
def findSourceConfig (cfgs : List (String × SourceConfig)) (source : String) :
    Option SourceConfig :=
  (cfgs.find? (fun kv =>
    stripSitePrefixes kv.1 == stripSitePrefixes source)).map (fun kv => kv.2)

/-- One HTTP GET to the Jina reader service, with the headers
read_with_jina_api builds. -/
structure JinaRequest where
  url : String
  auth : Option String
  target_selector : Option String
  remove_selector : Option String
deriving DecidableEq

/-- The _JINA_BASE_URL constant. -/
def jinaBaseUrl : String := "https://r.jina.ai/"

/-- Header construction of read_with_jina_api: Authorization when an API
key is configured, X-Target-Selector from the joined truthy title and text
css paths, X-Remove-Selector from a truthy ignore_css_path. -/
def buildJinaRequest (apiKey : Option String) (cfg : SourceConfig)
    (url : String) : JinaRequest :=
  let target := String.intercalate ", "
    ((normalizePaths cfg.title_css_path ++
      normalizePaths cfg.text_css_path).filter (fun s => !(s == "")))
  { url := jinaBaseUrl ++ url
    auth := apiKey.map (fun k => "Bearer " ++ k)
    target_selector := if target = "" then none else some target
    remove_selector :=
      if cfg.ignore_css_path = "" then none else some cfg.ignore_css_path }

/-- Outcome of the one requests.get call: success with a body, or failure
(transport error or raise_for_status, both requests.RequestException). -/
inductive HttpOutcome
| success (body : String)
| failure
deriving DecidableEq

/-- Observable trace of one read_with_jina_api call: the HTTP requests it
issued, its return value, and how many times the fixed rate-limit sleep in
the finally block ran. -/
structure JinaTrace where
  requests : List JinaRequest
  result : Option String
  sleeps : Nat
deriving DecidableEq

/-- The _JINA_RATE_LIMIT_AUTH constant, 0.12 seconds, as a rational. -/
def jinaRateLimitAuth : ℚ := 12 / 100

/-- The _JINA_RATE_LIMIT_FREE constant, 3.0 seconds, as a rational. -/
def jinaRateLimitFree : ℚ := 3

/-- The per-instance _jina_rate_limit selection in __init__. -/
def jinaRateLimit (apiKey : Option String) : ℚ :=
  if apiKey.isSome then jinaRateLimitAuth else jinaRateLimitFree

/-- NewsArticleScraper.read_with_jina_api: no config or a skip-flagged
config returns None before the try block (no request, no sleep); otherwise
exactly one GET is issued and the finally-block sleep runs once whether the
request succeeded or failed. -/
def readWithJina (apiKey : Option String) (cfgs : List (String × SourceConfig))
    (http : HttpOutcome) (url source : String) : JinaTrace :=
  match findSourceConfig cfgs source with
  | none => ⟨[], none, 0⟩
  | some cfg =>
    if cfg.skip then ⟨[], none, 0⟩
    else
      let req := buildJinaRequest apiKey cfg url
      match http with
      | HttpOutcome.success body => ⟨[req], some body, 1⟩
      | HttpOutcome.failure => ⟨[req], none, 1⟩

/-- Outcome of navigating to one redirect URL: an exception during
navigation (or during the optional Cloudflare bypass), or a rendered page
with its cf-footer-item marker state and final URL. -/
inductive NavOutcome
| errorRaised (msg : String)
| page (isCloudflare : Bool) (finalUrl : String)

/-- The _BASE_URL constant. -/
def cryptopanicBase : String := "https://cryptopanic.com/"

/-- The _open_redirect_page closure: returns the redirected_urls_dict entry,
the content_map entry, and the trace of the Jina call it made (empty when
no call happened). -/
def openRedirectPage (apiKey : Option String)
    (cfgs : List (String × SourceConfig)) (http : HttpOutcome)
    (nav : NavOutcome) (_redirectUrl source : String) :
    String × Option String × JinaTrace :=
  match nav with
  | NavOutcome.errorRaised msg => ("Error: " ++ msg, none, ⟨[], none, 0⟩)
  | NavOutcome.page true _ => ("Cloudflare Page Error", none, ⟨[], none, 0⟩)
  | NavOutcome.page false finalUrl =>
    if pyStartsWith finalUrl.data cryptopanicBase.data then
      (finalUrl, none, ⟨[], none, 0⟩)
    else
      let j := readWithJina apiKey cfgs http finalUrl source
      (finalUrl, j.result, j)

/-- A concrete source config used by the witnesses. -/
def sampleConfig : SourceConfig :=
  ⟨false, CssPaths.single "h1.title", CssPaths.several ["div.article", "p"],
    "div.ads"⟩

/-
  C6 and C7: _bulk_extract_articles, _parse_articles_concurrent and
  _parse_and_store of news_scraper.py.  The article cache self.cache is a
  url-keyed dict; the claims are about its contents as a mapping, so it is
  modelled as a function String -> Option ArticleData (insertion order of
  the Python dict carries no information the claims mention).
-/

/-- The ArticleData TypedDict of news_scraper.py. -/
structure ArticleData where
  title : String
  url : String
  redirect_url : String
  date : String
  source : String
  source_type : String
  currencies : List String
  votes : List (String × Nat)
deriving DecidableEq

/-- The url-keyed article cache, as a mapping. -/
def NewsCache : Type := String → Option ArticleData

/-- Membership test url in self.cache. -/
def cacheHas (c : NewsCache) (k : String) : Bool := (c k).isSome

/-- Assignment self.cache[url] = article. -/
def cacheInsert (c : NewsCache) (k : String) (a : ArticleData) : NewsCache :=
  fun v => if v = k then some a else c v

/-- The empty starting cache. -/
def emptyCache : NewsCache := fun _ => none

/-- One raw item of the list the bulk _EXTRACT_ALL_JS evaluation returns:
a JS object whose title and url may be null; item.get(key, default) is
modelled by Option.getD (none standing for a missing or null field). -/
structure RawItem where
  title : Option String
  url : Option String
  redirect_url : Option String
  date : Option String
  source : Option String
  source_type : Option String
  currencies : Option (List String)
  votes : Option (List (String × Nat))

/-- Python truthiness of an optional string: None and "" are falsy. -/
def strTruthy : Option String → Option String
| none => none
| some s => if s = "" then none else some s

/-- The per-item body of the _bulk_extract_articles loop: skip when the
title or url is falsy, skip when the url is cached and force_update is
unset, otherwise build the ArticleData with the documented defaults, store
it under its url and count it as new. -/
def bulkStep (forceUpdate : Bool) (acc : NewsCache × Nat) (item : RawItem) :
    NewsCache × Nat :=
  match strTruthy item.title, strTruthy item.url with
  | some title, some url =>
    if cacheHas acc.1 url && !forceUpdate then acc
    else
      (cacheInsert acc.1 url
        { title := title
          url := url
          redirect_url := item.redirect_url.getD url
          date := item.date.getD ""
          source := item.source.getD "unknown"
          source_type := item.source_type.getD "link"
          currencies := item.currencies.getD ["N/A"]
          votes := item.votes.getD [] },
        acc.2 + 1)
  | _, _ => acc

/-- NewsArticleScraper._bulk_extract_articles over an already extracted raw
list: final cache and the number of new articles stored. -/
def bulkExtract (forceUpdate : Bool) (cache : NewsCache) (raw : List RawItem) :
    NewsCache × Nat :=
  raw.foldl (bulkStep forceUpdate) (cache, 0)

/-- NewsArticleScraper._parse_and_store for one already parsed element:
none models a _parse_article result of None (or a raised exception); a
parsed article is stored under its own url unless already cached and
force_update is unset.  Returns the new cache and whether a new article was
stored. -/
def parseAndStore (forceUpdate : Bool) (cache : NewsCache)
    (res : Option ArticleData) : NewsCache × Bool :=
  match res with
  | none => (cache, false)
  | some art =>
    if cacheHas cache art.url && !forceUpdate then (cache, false)
    else (cacheInsert cache art.url art, true)

/-- One completed task of _parse_articles_concurrent merging into the
shared cache and the new-article count. -/
def taskStep (forceUpdate : Bool) (acc : NewsCache × Nat)
    (res : Option ArticleData) : NewsCache × Nat :=
  let s := parseAndStore forceUpdate acc.1 res
  (s.1, acc.2 + (if s.2 then 1 else 0))

/-- The fallback extraction _parse_articles_concurrent, executed in one
completion order of the per-element tasks: the list order is the order in
which the tasks performed their cache writes. -/
def runTasks (forceUpdate : Bool) (cache : NewsCache)
    (results : List (Option ArticleData)) : NewsCache × Nat :=
  results.foldl (taskStep forceUpdate) (cache, 0)

/-- The cache component of one task, used to reason about final caches. -/
def taskCacheStep (forceUpdate : Bool) (cache : NewsCache)
    (res : Option ArticleData) : NewsCache :=
  (parseAndStore forceUpdate cache res).1

/-- The url keys the parsed tasks write under, in task order: the claim
phrase "each task writes only under its own URL key" is about this list. -/
def urlsOf (l : List (Option ArticleData)) : List String :=
  (l.filterMap id).map (fun a => a.url)

/-- Concrete articles for the C7 counterexample and witness: artA and artB
share a url but differ in title; artC has a distinct url. -/
def artA : ArticleData :=
  ⟨"A", "/news/1/x", "/news/click/1/", "", "s.com", "link", ["N/A"], []⟩

def artB : ArticleData :=
  ⟨"B", "/news/1/x", "/news/click/1/", "", "s.com", "link", ["N/A"], []⟩

def artC : ArticleData :=
  ⟨"C", "/news/2/y", "/news/click/2/", "", "s.com", "link", ["N/A"], []⟩

/-
  C8: the _incremental_save closure inside open_all_redirect_urls.
  cached_df["content"] becomes cached_df["redirect_url"].map(content_map)
  .combine_first(cached_df["content"]), and final_url likewise from
  redirected_urls_dict.  Series.map over a dict yields a missing value both
  when the key is absent and when the stored value is None, and
  combine_first keeps the existing cell exactly when the new one is
  missing.
-/

/-- One row of the enriched-content DataFrame; only the columns the merge
step touches. -/
structure ContentRow where
  redirect_url : String
  content : Option String
  final_url : Option String
deriving DecidableEq

/-- Series.combine_first on one cell: the mapped value wins when present,
else the previously stored cell survives. -/
def combineFirstCell (newVal old : Option String) : Option String :=
  match newVal with
  | some v => some v
  | none => old

/-- Series.map(content_map) on one cell: a missing key and a key stored
with None both yield a missing value. -/
def mapContentCell (cm : List (String × Option String)) (r : String) :
    Option String :=
  match dictFind cm r with
  | some (some v) => some v
  | some none => none
  | none => none

/-- Series.map(redirected_urls_dict) on one cell; that dict stores plain
strings, so only a missing key yields a missing value. -/
def mapFinalCell (rm : List (String × String)) (r : String) : Option String :=
  dictFind rm r

/-- The _incremental_save merge applied to one row of the content cache. -/
def incrementalSaveRow (cm : List (String × Option String))
    (rm : List (String × String)) (row : ContentRow) : ContentRow :=
  { row with
    content := combineFirstCell (mapContentCell cm row.redirect_url)
      row.content
    final_url := combineFirstCell (mapFinalCell rm row.redirect_url)
      row.final_url }

/-
  C9: NewsArticleScraper._load_cache.
  The filesystem is an abstract environment; one call observes exactly one of
  the following states of the cache file, matching the operations the code
  performs: os.path.exists, open + read (which can raise OSError, or
  UnicodeDecodeError when the bytes are not valid UTF-8), json.load (which
  raises JSONDecodeError on malformed JSON).  The except clause of
  _load_cache catches exactly (json.JSONDecodeError, OSError).
-/

inductive FsState
| missing
| osErrorOnRead
| invalidUtf8
| invalidJson
| validJson (cache : List (String × ArticleData))

/-- The exception _load_cache can propagate. -/
inductive PyError
| unicodeDecodeError
deriving DecidableEq

/-- NewsArticleScraper._load_cache: a missing file, an OSError and
malformed JSON all produce the empty cache; a file that is not valid UTF-8
makes json.load raise UnicodeDecodeError, a ValueError outside the caught
(json.JSONDecodeError, OSError), so the call raises. -/
def loadCache : FsState → Except PyError (List (String × ArticleData))
| FsState.missing => Except.ok []
| FsState.osErrorOnRead => Except.ok []
| FsState.invalidUtf8 => Except.error PyError.unicodeDecodeError
| FsState.invalidJson => Except.ok []
| FsState.validJson d => Except.ok d

end Cryptopanic

namespace Cryptopanic

/- ------------------------------------------------------------------ -/
/- Helper lemmas.                                                      -/
/- ------------------------------------------------------------------ -/

theorem expectChars_cons_ne {e : Char} {es c t} (h : c ≠ e) :
    expectChars (e :: es) (c :: t) = none := by
  simp [expectChars, h]

theorem matchNewsAt_not_slash {c : Char} {t : List Char} (h : c ≠ '/') :
    matchNewsAt (c :: t) = none := by
  unfold matchNewsAt newsLit
  rw [expectChars_cons_ne h]

theorem matchNewsAt_digits {l ds : List Char} (h : matchNewsAt l = some ds) :
    ∀ c ∈ ds, c.isDigit = true := by
  unfold matchNewsAt at h
  rcases he : expectChars newsLit l with _ | rest
  · rw [he] at h; exact absurd h (by simp)
  · rw [he] at h
    simp only at h
    split at h
    · exact absurd h (by simp)
    · split at h
      · rename_i heq
        intro c hc
        rw [← Option.some.injEq] at h
        have hds : ds = rest.takeWhile Char.isDigit := by
          cases h; rfl
        subst hds
        exact List.mem_takeWhile_imp hc
      · exact absurd h (by simp)

theorem findNewsId_digits {l ds : List Char} (h : findNewsId l = some ds) :
    ∀ c ∈ ds, c.isDigit = true := by
  induction l with
  | nil => exact absurd h (by simp [findNewsId])
  | cons c rest ih =>
    rw [findNewsId] at h
    rcases hm : matchNewsAt (c :: rest) with _ | ds2
    · rw [hm] at h
      exact ih h
    · rw [hm] at h
      simp only [Option.some.injEq] at h
      subst h
      exact matchNewsAt_digits hm

theorem findNewsId_digit_run {ds : List Char}
    (h : ∀ c ∈ ds, c.isDigit = true) :
    findNewsId (ds ++ ['/']) = none := by
  induction ds with
  | nil => decide
  | cons c cs ih =>
    have hc : c.isDigit = true := h c (List.mem_cons_self c cs)
    have hslash : c ≠ '/' := by
      intro e; rw [e] at hc; exact absurd hc (by decide)
    show findNewsId (c :: (cs ++ ['/'])) = none
    rw [findNewsId, matchNewsAt_not_slash hslash]
    exact ih (fun x hx => h x (List.mem_cons_of_mem c hx))

theorem findNewsId_click {ds : List Char}
    (h : ∀ c ∈ ds, c.isDigit = true) :
    findNewsId (newsClickLit ++ ds ++ ['/']) = none := by
  have htail : findNewsId (ds ++ ['/']) = none := findNewsId_digit_run h
  have hn : ∀ c ∈ ds, c ≠ 'n' := by
    intro c hc e
    have := h c hc
    rw [e] at this
    exact absurd this (by decide)
  show findNewsId
      ('/' :: 'n' :: 'e' :: 'w' :: 's' :: '/' :: 'c' :: 'l' :: 'i' :: 'c' ::
        'k' :: '/' :: (ds ++ ['/'])) = none
  rcases ds with _ | ⟨d, tail⟩
  · decide
  · have hdn : d ≠ 'n' := hn d (List.mem_cons_self d tail)
    rw [findNewsId]
    rw [show matchNewsAt
        ('/' :: 'n' :: 'e' :: 'w' :: 's' :: '/' :: 'c' :: 'l' :: 'i' :: 'c' ::
          'k' :: '/' :: ((d :: tail) ++ ['/'])) = none from rfl]
    rw [findNewsId, matchNewsAt_not_slash (by decide : 'n' ≠ '/')]
    rw [findNewsId, matchNewsAt_not_slash (by decide : 'e' ≠ '/')]
    rw [findNewsId, matchNewsAt_not_slash (by decide : 'w' ≠ '/')]
    rw [findNewsId, matchNewsAt_not_slash (by decide : 's' ≠ '/')]
    rw [findNewsId]
    rw [show matchNewsAt
        ('/' :: 'c' :: 'l' :: 'i' :: 'c' :: 'k' :: '/' ::
          ((d :: tail) ++ ['/'])) = none from rfl]
    rw [findNewsId, matchNewsAt_not_slash (by decide : 'c' ≠ '/')]
    rw [findNewsId, matchNewsAt_not_slash (by decide : 'l' ≠ '/')]
    rw [findNewsId, matchNewsAt_not_slash (by decide : 'i' ≠ '/')]
    rw [findNewsId, matchNewsAt_not_slash (by decide : 'c' ≠ '/')]
    rw [findNewsId, matchNewsAt_not_slash (by decide : 'k' ≠ '/')]
    rw [findNewsId]
    rw [show matchNewsAt ('/' :: ((d :: tail) ++ ['/'])) = none by
      unfold matchNewsAt newsLit
      rw [show expectChars ['/', 'n', 'e', 'w', 's', '/']
          ('/' :: ((d :: tail) ++ ['/'])) = none by
        show expectChars ['n', 'e', 'w', 's', '/'] (d :: (tail ++ ['/'])) = none
        exact expectChars_cons_ne hdn]]
    exact htail

/- ------------------------------------------------------------------ -/
/- Claim theorems.                                                     -/
/- ------------------------------------------------------------------ -/

/-- C10: _build_redirect_url maps a url containing /news/(digits)/ to
"/news/click/(digits)/" using the leftmost match, returns any other url
unchanged, and is idempotent: applying it twice equals applying it once,
because its output never contains a rewritable /news/(digits)/ substring. -/
theorem C10_build_redirect_url (url : String) :
    (∀ ds, findNewsId url.data = some ds →
        buildRedirectUrl url = "/news/click/" ++ String.mk ds ++ "/") ∧
    (findNewsId url.data = none → buildRedirectUrl url = url) ∧
    buildRedirectUrl (buildRedirectUrl url) = buildRedirectUrl url := by
  refine ⟨?_, ?_, ?_⟩
  · intro ds h
    unfold buildRedirectUrl
    rw [h]
  · intro h
    unfold buildRedirectUrl
    rw [h]
  · rcases hfind : findNewsId url.data with _ | ds
    · have h1 : buildRedirectUrl url = url := by
        unfold buildRedirectUrl; rw [hfind]
      rw [h1, h1]
    · have h1 : buildRedirectUrl url = "/news/click/" ++ String.mk ds ++ "/" := by
        unfold buildRedirectUrl; rw [hfind]
      rw [h1]
      have hdata : ("/news/click/" ++ String.mk ds ++ "/").data
          = newsClickLit ++ ds ++ ['/'] := rfl
      unfold buildRedirectUrl
      rw [hdata, findNewsId_click (findNewsId_digits hfind)]

/-- C10 witness: a concrete run of the redirect derivation and of its
idempotence. -/
theorem C10_build_redirect_url_witness :
    buildRedirectUrl "/news/29538595/Dogecoin" = "/news/click/29538595/" ∧
    buildRedirectUrl (buildRedirectUrl "/news/29538595/Dogecoin")
      = buildRedirectUrl "/news/29538595/Dogecoin" := by
  constructor
  · have h := (C10_build_redirect_url "/news/29538595/Dogecoin").1
      ['2', '9', '5', '3', '8', '5', '9', '5'] (by decide)
    rw [h]; decide
  · exact (C10_build_redirect_url "/news/29538595/Dogecoin").2.2

/-- C2 counterexample: the claim covers CryptoPanicScraper.get_votes of
api_news_scraper.py as well, but that parser slices the first two
characters as the count and strips every occurrence of them and of the
substring "votes": on the attribute "12 Important vote", which the claimed
regex matches with groups ("12", "Important"), it stores the entry
("Important vote", 12) and not the claimed ("Important", 12). -/
theorem C2_vote_parsing_counterexample :
    apiGetVotes [some "12 Important vote"] []
      = [("Important vote", (12 : Int))] ∧
    apiGetVotes [some "12 Important vote"] []
      ≠ [("Important", (12 : Int))] := by
  constructor
  · decide
  · decide

/-- C2 amended: the regex-based vote parsers of news_scraper.py (_get_votes
and the bulk-extraction script) behave exactly as the claim states: an
attribute matching \s*(\d+)\s+(.+?)\s+votes?\s*$ (anchored) adds the entry
group(2) -> int(group(1)), so "5 Bullish votes" yields ("Bullish", 5) and
"12 Important vote" yields ("Important", 12), and a non-matching attribute
such as "votes" adds no entry; CryptoPanicScraper.get_votes of
api_news_scraper.py instead uses the first-two-characters slice and
substring stripping, which diverges on multi-word labels. -/
theorem C2_vote_parsing_amended (votes : List (String × Nat)) (t : String) :
    parseVoteTitle "5 Bullish votes" = some ("Bullish", 5) ∧
    parseVoteTitle "12 Important vote" = some ("Important", 12) ∧
    parseVoteTitle "votes" = none ∧
    (∀ l n, parseVoteTitle t = some (l, n) →
        getVotesStep votes (some t) = dictInsert votes l n) ∧
    (parseVoteTitle t = none → getVotesStep votes (some t) = votes) ∧
    getVotesStep votes none = votes := by
  have hstep : ∀ u, getVotesStep votes (some u)
      = if u = "" then votes
        else match parseVoteTitle u with
          | some (l, n) => dictInsert votes l n
          | none => votes := fun _ => rfl
  refine ⟨by decide, by decide, by decide, ?_, ?_, rfl⟩
  · intro l n h
    by_cases ht : t = ""
    · subst ht
      have hempty : parseVoteTitle "" = none := by decide
      rw [hempty] at h
      exact Option.noConfusion h
    · rw [hstep, if_neg ht, h]
  · intro h
    by_cases ht : t = ""
    · subst ht; rfl
    · rw [hstep, if_neg ht, h]

/-- C2 witness: a concrete matching attribute updates the votes dict with
the parsed label and count. -/
theorem C2_vote_parsing_amended_witness :
    getVotesStep [] (some "5 Bullish votes") = dictInsert [] "Bullish" 5 :=
  (C2_vote_parsing_amended [] "5 Bullish votes").2.2.2.1 "Bullish" 5
    (by decide)

theorem bypassCFGo_succ (m : Nat → Bool) (k done solves : Nat) :
    bypassCFGo m (k + 1) done solves =
      if m (done + 1) then bypassCFGo m k (done + 1) (solves + 1)
      else ⟨done + 1, solves, false, CFResult.ok⟩ := rfl

theorem bypassCFGo_all_present (m : Nat → Bool) (k : Nat) :
    ∀ done solves, (∀ j, done < j → j ≤ done + k → m j = true) →
      bypassCFGo m k done solves
        = ⟨done + k, solves + k, true, CFResult.challengeFailed⟩ := by
  induction k with
  | zero => intro done solves _; rfl
  | succ k ih =>
    intro done solves h
    rw [bypassCFGo_succ, if_pos (h (done + 1) (by omega) (by omega))]
    rw [ih (done + 1) (solves + 1) (fun j h1 h2 => h j (by omega) (by omega))]
    simp [CFTrace.mk.injEq]
    omega

theorem bypassCFGo_clear_at (m : Nat → Bool) (k : Nat) :
    ∀ done solves j, 1 ≤ j → j ≤ k → m (done + j) = false →
      (∀ i, 1 ≤ i → i < j → m (done + i) = true) →
      bypassCFGo m k done solves
        = ⟨done + j, solves + (j - 1), false, CFResult.ok⟩ := by
  induction k with
  | zero => intro done solves j h1 h2; omega
  | succ k ih =>
    intro done solves j h1 h2 hclear hbefore
    obtain ⟨j2, rfl⟩ : ∃ j2, j = j2 + 1 := ⟨j - 1, by omega⟩
    by_cases hj : j2 = 0
    · subst hj
      rw [bypassCFGo_succ, if_neg (by rw [hclear]; simp)]
      simp
    · rw [bypassCFGo_succ,
        if_pos (hbefore 1 (by omega) (by omega))]
      have hstep := ih (done + 1) (solves + 1) j2 (by omega) (by omega)
        (by rw [show done + 1 + j2 = done + (j2 + 1) by omega]; exact hclear)
        (fun i hi1 hi2 => by
          rw [show done + 1 + i = done + (i + 1) by omega]
          exact hbefore (i + 1) (by omega) (by omega))
      rw [hstep]
      simp [CFTrace.mk.injEq]
      omega

theorem bypassCFGo_attempts_le (m : Nat → Bool) (k : Nat) :
    ∀ done solves, (bypassCFGo m k done solves).attempts ≤ done + k := by
  induction k with
  | zero => intro done solves; simp [bypassCFGo]
  | succ k ih =>
    intro done solves
    rw [bypassCFGo_succ]
    by_cases h : m (done + 1) = true
    · rw [if_pos h]
      have := ih (done + 1) (solves + 1)
      omega
    · rw [if_neg h]
      show done + 1 ≤ done + (k + 1)
      omega

/-- C3: the Cloudflare gate _bypass_cloudflare returns Ok on the first
attempt at which the challenge marker is absent, having slept and invoked
verify_cf exactly once per preceding marker-present attempt and zero times
on the clearing attempt itself; when the marker is present on all 5 attempts
it captures the diagnostic screenshot and fails with the distinct fatal
RuntimeError; and it never makes more than 5 attempts. -/
theorem C3_bypass_cloudflare (m : Nat → Bool) :
    (∀ a, 1 ≤ a → a ≤ 5 → m a = false → (∀ b, 1 ≤ b → b < a → m b = true) →
        bypassCF m = ⟨a, a - 1, false, CFResult.ok⟩) ∧
    ((∀ a, 1 ≤ a → a ≤ 5 → m a = true) →
        bypassCF m = ⟨5, 5, true, CFResult.challengeFailed⟩) ∧
    (bypassCF m).attempts ≤ 5 := by
  refine ⟨?_, ?_, ?_⟩
  · intro a h1 h5 hfa hprior
    have := bypassCFGo_clear_at m 5 0 0 a h1 h5
      (by simpa using hfa) (fun i hi1 hi2 => by simpa using hprior i hi1 hi2)
    simpa [bypassCF, cfMaxAttempts] using this
  · intro hall
    have := bypassCFGo_all_present m 5 0 0
      (fun j hj1 hj2 => hall j (by omega) (by omega))
    simpa [bypassCF, cfMaxAttempts] using this
  · exact bypassCFGo_attempts_le m 5 0 0

/-- C3 witness: with the marker present on attempts 1 and 2 and absent from
attempt 3 on, the gate returns Ok after exactly 3 attempts and 2
sleep-and-verify rounds and takes no screenshot. -/
theorem C3_bypass_cloudflare_witness :
    bypassCF (fun a => decide (a ≤ 2)) = ⟨3, 2, false, CFResult.ok⟩ :=
  (C3_bypass_cloudflare (fun a => decide (a ≤ 2))).1 3 (by decide) (by decide)
    (by decide) (fun b hb1 hb2 => by interval_cases b <;> decide)

/-- C4: classification in _open_redirect_page / read_with_jina_api.  A
resolved final URL starting with the CryptoPanic base records null content
and issues no Jina fetch; a final URL outside the base with no matching
source config records null content and issues no HTTP request; a final URL
with a matching non-skip config issues exactly one GET whose target- and
remove-selector headers are built from that config. -/
theorem C4_redirect_classification (apiKey : Option String)
    (cfgs : List (String × SourceConfig)) (http : HttpOutcome)
    (u source r : String) :
    (pyStartsWith u.data cryptopanicBase.data = true →
        openRedirectPage apiKey cfgs http (NavOutcome.page false u) r source
          = (u, none, ⟨[], none, 0⟩)) ∧
    (pyStartsWith u.data cryptopanicBase.data = false →
        findSourceConfig cfgs source = none →
        openRedirectPage apiKey cfgs http (NavOutcome.page false u) r source
          = (u, none, ⟨[], none, 0⟩)) ∧
    (∀ cfg, pyStartsWith u.data cryptopanicBase.data = false →
        findSourceConfig cfgs source = some cfg → cfg.skip = false →
        (openRedirectPage apiKey cfgs http
            (NavOutcome.page false u) r source).2.2.requests
          = [buildJinaRequest apiKey cfg u]) := by
  refine ⟨?_, ?_, ?_⟩
  · intro hbase
    simp [openRedirectPage, hbase]
  · intro hbase hfind
    simp [openRedirectPage, hbase, readWithJina, hfind]
  · intro cfg hbase hfind hskip
    cases http <;> simp [openRedirectPage, hbase, readWithJina, hfind, hskip]

/-- C4 witness: a concrete external final URL with a matching non-skip
config issues exactly the one configured request. -/
theorem C4_redirect_classification_witness :
    (openRedirectPage none [("example.com", sampleConfig)] HttpOutcome.failure
        (NavOutcome.page false "https://www.example.com/article")
        "/news/click/1/" "www.example.com").2.2.requests
      = [buildJinaRequest none sampleConfig
          "https://www.example.com/article"] :=
  (C4_redirect_classification none [("example.com", sampleConfig)]
      HttpOutcome.failure "https://www.example.com/article" "www.example.com"
      "/news/click/1/").2.2 sampleConfig (by decide) (by decide) (by decide)

/-- C5: read_with_jina_api returns null on a failed request without any
retry (at most the one GET is ever issued), the fixed rate-limit sleep in
the finally block runs exactly once on every call that issued a request
whether it succeeded or failed, and the configured interval is the shorter
authenticated one exactly when an API key is present, the longer free-tier
one otherwise. -/
theorem C5_jina_failure_and_rate_limit (apiKey : Option String)
    (cfgs : List (String × SourceConfig)) (u source : String) :
    ((readWithJina apiKey cfgs HttpOutcome.failure u source).result = none ∧
      (readWithJina apiKey cfgs HttpOutcome.failure u source).requests.length
        ≤ 1) ∧
    (∀ http body,
      (readWithJina apiKey cfgs http u source).requests ≠ [] →
        (readWithJina apiKey cfgs http u source).sleeps = 1 ∧
        (readWithJina apiKey cfgs HttpOutcome.failure u source).sleeps = 1 ∧
        (readWithJina apiKey cfgs (HttpOutcome.success body) u source).sleeps
          = 1) ∧
    (apiKey.isSome = true → jinaRateLimit apiKey = jinaRateLimitAuth) ∧
    (apiKey.isSome = false → jinaRateLimit apiKey = jinaRateLimitFree) ∧
    jinaRateLimitAuth < jinaRateLimitFree := by
  refine ⟨?_, ?_, ?_, ?_, ?_⟩
  · rcases hfind : findSourceConfig cfgs source with _ | cfg
    · simp [readWithJina, hfind]
    · by_cases hskip : cfg.skip <;> simp [readWithJina, hfind, hskip]
  · intro http body hreq
    rcases hfind : findSourceConfig cfgs source with _ | cfg
    · exact absurd (by simp [readWithJina, hfind]) hreq
    · by_cases hskip : cfg.skip
      · exact absurd (by simp [readWithJina, hfind, hskip]) hreq
      · cases http <;> simp [readWithJina, hfind, hskip]
  · intro h; simp [jinaRateLimit, h]
  · intro h; simp [jinaRateLimit, h]
  · show (12 / 100 : ℚ) < 3
    norm_num

/-- C5 witness: a concrete failed call returns null having issued one
request, and the one rate-limit sleep ran. -/
theorem C5_jina_failure_and_rate_limit_witness :
    (readWithJina none [("example.com", sampleConfig)] HttpOutcome.failure
        "https://www.example.com/article" "www.example.com").result = none ∧
    (readWithJina none [("example.com", sampleConfig)] HttpOutcome.failure
        "https://www.example.com/article" "www.example.com").sleeps = 1 := by
  constructor
  · exact (C5_jina_failure_and_rate_limit none [("example.com", sampleConfig)]
      "https://www.example.com/article" "www.example.com").1.1
  · exact ((C5_jina_failure_and_rate_limit none [("example.com", sampleConfig)]
      "https://www.example.com/article" "www.example.com").2.1
      HttpOutcome.failure "" (by decide)).2.1

theorem scrollRun_succ (maxRetries : Nat) (c : Nat → Nat) (mrk : Nat → Bool)
    (fuel : Nat) (st : Nat × Nat) (i : Nat) :
    scrollRun maxRetries c mrk (fuel + 1) st i =
      match scrollStep maxRetries (c i) (mrk i) st with
      | Sum.inr r => some (i + 1, r)
      | Sum.inl st2 => scrollRun maxRetries c mrk fuel st2 (i + 1) := rfl

/-- C1: on a simulated page whose rendered-article count strictly increases
on the first 3 iterations and is constant afterwards, with max_retries = 5
and the all-loaded marker never present, the scroll loop of
_scroll_and_collect runs exactly 3 + 5 iterations and stops by stale
exhaustion; and each iteration of the loop increments the stale counter
when the rendered count equals the previous iteration's count and resets it
to zero otherwise, stopping as soon as the stale counter reaches
max_retries, or else as soon as the all-loaded marker is observed. -/
theorem C1_scroll_and_collect (c : Nat → Nat)
    (hc0 : 0 < c 0) (h01 : c 0 < c 1) (h12 : c 1 < c 2)
    (hplateau : ∀ i, 3 ≤ i → c i = c 2)
    (fuel : Nat) (hfuel : 8 ≤ fuel) :
    scrollRun 5 c (fun _ => false) fuel (0, 0) 0
      = some (3 + 5, StopReason.staleExhausted) ∧
    (∀ mr cur st, ∀ mrk2 : Bool,
      (cur = st.2 → mr ≤ st.1 + 1 →
          scrollStep mr cur mrk2 st = Sum.inr StopReason.staleExhausted) ∧
      (cur = st.2 → ¬ mr ≤ st.1 + 1 → mrk2 = true →
          scrollStep mr cur mrk2 st = Sum.inr StopReason.allLoaded) ∧
      (cur = st.2 → ¬ mr ≤ st.1 + 1 → mrk2 = false →
          scrollStep mr cur mrk2 st = Sum.inl (st.1 + 1, cur)) ∧
      (cur ≠ st.2 → mrk2 = true →
          scrollStep mr cur mrk2 st = Sum.inr StopReason.allLoaded) ∧
      (cur ≠ st.2 → mrk2 = false →
          scrollStep mr cur mrk2 st = Sum.inl (0, cur))) := by
  constructor
  · obtain ⟨k, rfl⟩ : ∃ k, fuel = k + 8 := ⟨fuel - 8, by omega⟩
    have hne0 : c 0 ≠ 0 := hc0.ne'
    have hne1 : c 1 ≠ c 0 := Nat.ne_of_gt h01
    have hne2 : c 2 ≠ c 1 := Nat.ne_of_gt h12
    have h3 : c 3 = c 2 := hplateau 3 (by omega)
    have h4 : c 4 = c 2 := hplateau 4 (by omega)
    have h5 : c 5 = c 2 := hplateau 5 (by omega)
    have h6 : c 6 = c 2 := hplateau 6 (by omega)
    have h7 : c 7 = c 2 := hplateau 7 (by omega)
    show scrollRun 5 c (fun _ => false) (k + 1 + 1 + 1 + 1 + 1 + 1 + 1 + 1)
        (0, 0) 0 = some (3 + 5, StopReason.staleExhausted)
    simp only [scrollRun_succ, scrollStep, h3, h4, h5, h6, h7]
    simp [hne0, hne1, hne2]
  · intro mr cur st mrk2
    refine ⟨?_, ?_, ?_, ?_, ?_⟩ <;> intros <;>
      simp_all [scrollStep]

/-- C1 witness: the concrete page whose rendered counts are 1, 2, 3, 3, ...
with the marker never present makes the loop stop by stale exhaustion after
exactly 3 + 5 iterations. -/
theorem C1_scroll_and_collect_witness :
    scrollRun 5 (fun i => min (i + 1) 3) (fun _ => false) 20 (0, 0) 0
      = some (3 + 5, StopReason.staleExhausted) :=
  (C1_scroll_and_collect (fun i => min (i + 1) 3) (by decide) (by decide)
    (by decide)
    (fun i hi => by show min (i + 1) 3 = min (2 + 1) 3; omega)
    20 (by norm_num)).1

/- Helper lemmas for the cache and the extraction pipeline. -/

theorem cacheHas_insert_self (c : NewsCache) (k : String) (a : ArticleData) :
    cacheHas (cacheInsert c k a) k = true := by
  simp [cacheHas, cacheInsert]

theorem cacheHas_insert_mono (c : NewsCache) (k : String) (a : ArticleData)
    (u : String) (h : cacheHas c u = true) :
    cacheHas (cacheInsert c k a) u = true := by
  unfold cacheHas cacheInsert
  by_cases hu : u = k <;> simp [hu]
  exact h

theorem cacheHas_insert_ne (c : NewsCache) (k : String) (a : ArticleData)
    (u : String) (h : u ≠ k) :
    cacheHas (cacheInsert c k a) u = cacheHas c u := by
  simp [cacheHas, cacheInsert, h]

theorem cacheInsert_comm (c : NewsCache) (k1 : String) (a1 : ArticleData)
    (k2 : String) (a2 : ArticleData) (h : k1 ≠ k2) :
    cacheInsert (cacheInsert c k1 a1) k2 a2
      = cacheInsert (cacheInsert c k2 a2) k1 a1 := by
  funext v
  show (if v = k2 then some a2 else if v = k1 then some a1 else c v)
      = (if v = k1 then some a1 else if v = k2 then some a2 else c v)
  by_cases h2 : v = k2 <;> by_cases h1 : v = k1
  · exact absurd (h1.symm.trans h2) h
  · rw [if_pos h2, if_neg h1, if_pos h2]
  · rw [if_neg h2, if_pos h1, if_pos h1]
  · rw [if_neg h2, if_neg h1, if_neg h1, if_neg h2]

theorem bulkStep_has_mono (fu : Bool) (acc : NewsCache × Nat) (item : RawItem)
    (u : String) (h : cacheHas acc.1 u = true) :
    cacheHas (bulkStep fu acc item).1 u = true := by
  rcases ht : strTruthy item.title with _ | t
  · simpa [bulkStep, ht] using h
  · rcases hu : strTruthy item.url with _ | u2
    · simpa [bulkStep, ht, hu] using h
    · by_cases hc : (cacheHas acc.1 u2 && !fu) = true
      · simpa [bulkStep, ht, hu, hc] using h
      · simp only [bulkStep, ht, hu]
        rw [if_neg hc]
        exact cacheHas_insert_mono acc.1 u2 _ u h

theorem bulkStep_covers (fu : Bool) (acc : NewsCache × Nat) (item : RawItem)
    (t u : String) (ht : strTruthy item.title = some t)
    (hu : strTruthy item.url = some u) :
    cacheHas (bulkStep fu acc item).1 u = true := by
  by_cases hc : (cacheHas acc.1 u && !fu) = true
  · rw [Bool.and_eq_true] at hc
    simp [bulkStep, ht, hu, hc.1, hc.2]
  · simp only [bulkStep, ht, hu]
    rw [if_neg hc]
    exact cacheHas_insert_self acc.1 u _

theorem foldl_bulk_mono (fu : Bool) (raw : List RawItem) :
    ∀ (acc : NewsCache × Nat) u, cacheHas acc.1 u = true →
      cacheHas (raw.foldl (bulkStep fu) acc).1 u = true := by
  induction raw with
  | nil => intro acc u h; exact h
  | cons x xs ih =>
    intro acc u h
    simp only [List.foldl_cons]
    exact ih (bulkStep fu acc x) u (bulkStep_has_mono fu acc x u h)

theorem foldl_bulk_covers (fu : Bool) (raw : List RawItem) :
    ∀ (acc : NewsCache × Nat), ∀ item ∈ raw, ∀ t u,
      strTruthy item.title = some t → strTruthy item.url = some u →
      cacheHas (raw.foldl (bulkStep fu) acc).1 u = true := by
  induction raw with
  | nil => intro acc item hmem; exact absurd hmem (List.not_mem_nil item)
  | cons x xs ih =>
    intro acc item hmem t u ht hu
    simp only [List.foldl_cons]
    rcases List.mem_cons.mp hmem with rfl | hmem2
    · exact foldl_bulk_mono fu xs (bulkStep fu acc item) u
        (bulkStep_covers fu acc item t u ht hu)
    · exact ih (bulkStep fu acc x) item hmem2 t u ht hu

theorem bulkStep_frozen (acc : NewsCache × Nat) (item : RawItem)
    (h : ∀ t u, strTruthy item.title = some t → strTruthy item.url = some u →
      cacheHas acc.1 u = true) :
    bulkStep false acc item = acc := by
  rcases ht : strTruthy item.title with _ | t
  · simp [bulkStep, ht]
  · rcases hu : strTruthy item.url with _ | u
    · simp [bulkStep, ht, hu]
    · have hc := h t u ht hu
      simp [bulkStep, ht, hu, hc]

theorem foldl_bulk_frozen (raw : List RawItem) :
    ∀ (acc : NewsCache × Nat),
      (∀ item ∈ raw, ∀ t u, strTruthy item.title = some t →
        strTruthy item.url = some u → cacheHas acc.1 u = true) →
      raw.foldl (bulkStep false) acc = acc := by
  induction raw with
  | nil => intro acc _; rfl
  | cons x xs ih =>
    intro acc h
    simp only [List.foldl_cons]
    rw [bulkStep_frozen acc x (h x (List.mem_cons_self x xs))]
    exact ih acc (fun item hmem t u ht hu =>
      h item (List.mem_cons_of_mem x hmem) t u ht hu)

/-- C6: running _bulk_extract_articles on a fixed raw list and then running
it again on the same list with the resulting cache, with force_update
unset, stores zero new records the second time and leaves the cache
unchanged. -/
theorem C6_bulk_extract_idempotent (raw : List RawItem) (cache : NewsCache) :
    bulkExtract false (bulkExtract false cache raw).1 raw
      = ((bulkExtract false cache raw).1, 0) := by
  unfold bulkExtract
  exact foldl_bulk_frozen raw ((raw.foldl (bulkStep false) (cache, 0)).1, 0)
    (fun item hmem t u ht hu =>
      foldl_bulk_covers false raw (cache, 0) item hmem t u ht hu)

/- Helper lemmas for the concurrent fallback merge. -/

theorem foldl_taskStep_fst (fu : Bool) (results : List (Option ArticleData)) :
    ∀ (acc : NewsCache × Nat),
      (results.foldl (taskStep fu) acc).1
        = results.foldl (taskCacheStep fu) acc.1 := by
  induction results with
  | nil => intro acc; rfl
  | cons r rs ih =>
    intro acc
    simp only [List.foldl_cons]
    rw [ih (taskStep fu acc r)]
    rfl

theorem taskCacheStep_some (fu : Bool) (c : NewsCache) (a : ArticleData) :
    taskCacheStep fu c (some a)
      = if cacheHas c a.url && !fu then c else cacheInsert c a.url a := by
  by_cases hP : (cacheHas c a.url && !fu) = true
  · simp [taskCacheStep, parseAndStore, hP]
  · simp [taskCacheStep, parseAndStore, hP]

theorem taskCacheStep_comm (fu : Bool) (c : NewsCache)
    (r1 r2 : Option ArticleData)
    (h : ∀ a1 a2, r1 = some a1 → r2 = some a2 → a1.url ≠ a2.url) :
    taskCacheStep fu (taskCacheStep fu c r1) r2
      = taskCacheStep fu (taskCacheStep fu c r2) r1 := by
  rcases r1 with _ | a1
  · rfl
  rcases r2 with _ | a2
  · rfl
  have hne : a1.url ≠ a2.url := h a1 a2 rfl rfl
  have e1 : cacheHas (cacheInsert c a2.url a2) a1.url = cacheHas c a1.url :=
    cacheHas_insert_ne c a2.url a2 a1.url hne
  have e2 : cacheHas (cacheInsert c a1.url a1) a2.url = cacheHas c a2.url :=
    cacheHas_insert_ne c a1.url a1 a2.url (Ne.symm hne)
  by_cases hP1 : (cacheHas c a1.url && !fu) = true <;>
    by_cases hP2 : (cacheHas c a2.url && !fu) = true
  · have L : taskCacheStep fu c (some a1) = c := by
      rw [taskCacheStep_some, if_pos hP1]
    have R : taskCacheStep fu c (some a2) = c := by
      rw [taskCacheStep_some, if_pos hP2]
    simp only [L, R]
  · have L : taskCacheStep fu c (some a1) = c := by
      rw [taskCacheStep_some, if_pos hP1]
    have R : taskCacheStep fu c (some a2) = cacheInsert c a2.url a2 := by
      rw [taskCacheStep_some, if_neg hP2]
    simp only [L, R]
    rw [taskCacheStep_some, e1, if_pos hP1]
  · have L : taskCacheStep fu c (some a1) = cacheInsert c a1.url a1 := by
      rw [taskCacheStep_some, if_neg hP1]
    have R : taskCacheStep fu c (some a2) = c := by
      rw [taskCacheStep_some, if_pos hP2]
    simp only [L, R]
    rw [taskCacheStep_some, e2, if_pos hP2]
  · have L : taskCacheStep fu c (some a1) = cacheInsert c a1.url a1 := by
      rw [taskCacheStep_some, if_neg hP1]
    have R : taskCacheStep fu c (some a2) = cacheInsert c a2.url a2 := by
      rw [taskCacheStep_some, if_neg hP2]
    simp only [L, R]
    rw [taskCacheStep_some, taskCacheStep_some, e1, e2, if_neg hP1,
      if_neg hP2]
    exact cacheInsert_comm c a1.url a1 a2.url a2 hne

theorem urlsOf_cons_none (l : List (Option ArticleData)) :
    urlsOf (none :: l) = urlsOf l := by
  simp [urlsOf]

theorem urlsOf_cons_some (a : ArticleData) (l : List (Option ArticleData)) :
    urlsOf (some a :: l) = a.url :: urlsOf l := by
  simp [urlsOf]

theorem foldl_taskCache_perm (fu : Bool)
    {l1 l2 : List (Option ArticleData)} (hp : l1.Perm l2) :
    ∀ c : NewsCache, (urlsOf l1).Nodup →
      l1.foldl (taskCacheStep fu) c = l2.foldl (taskCacheStep fu) c := by
  induction hp with
  | nil => intro c _; rfl
  | cons x hp2 ih =>
    intro c hnd
    simp only [List.foldl_cons]
    apply ih
    cases x with
    | none => rw [urlsOf_cons_none] at hnd; exact hnd
    | some a => rw [urlsOf_cons_some] at hnd; exact List.Nodup.of_cons hnd
  | swap x y l =>
    intro c hnd
    simp only [List.foldl_cons]
    rw [taskCacheStep_comm fu c y x]
    intro a1 a2 hy hx
    subst hy; subst hx
    rw [urlsOf_cons_some, urlsOf_cons_some] at hnd
    have := (List.nodup_cons.mp hnd).1
    intro e
    exact this (by rw [e]; exact List.mem_cons_self a2.url _)
  | trans hp1 hp2 ih1 ih2 =>
    intro c hnd
    rw [ih1 c hnd]
    apply ih2
    have hpu : (urlsOf _).Perm (urlsOf _) := (hp1.filterMap id).map _
    exact hpu.nodup hnd

/-- C7 counterexample: the claim quantifies over every fixed set of parsed
elements, but two elements can parse to the same url with different data;
with force_update unset the task that completes first wins, so the two
completion orders of [artA, artB] (equal urls, different titles) leave
different final caches.  This refutes order-independence as claimed. -/
theorem C7_concurrent_merge_counterexample :
    (runTasks false emptyCache [some artA, some artB]).1 "/news/1/x"
      = some artA ∧
    (runTasks false emptyCache [some artB, some artA]).1 "/news/1/x"
      = some artB ∧
    artA ≠ artB ∧
    List.Perm [some artA, some artB] [some artB, some artA] ∧
    (runTasks false emptyCache [some artA, some artB]).1
      ≠ (runTasks false emptyCache [some artB, some artA]).1 := by
  refine ⟨by decide, by decide, by decide, List.Perm.swap _ _ _, ?_⟩
  intro h
  exact absurd (congrFun h "/news/1/x") (by decide)

/-- C7 amended: for every fixed list of parsed results whose stored url
keys are pairwise distinct (each task writes only under its own URL key, as
the claim's justification assumes) and every starting cache, the final
cache of the concurrent fallback extraction is the same for every
completion order (every permutation) of the per-element tasks. -/
theorem C7_concurrent_merge_amended (fu : Bool) (cache : NewsCache)
    (l1 l2 : List (Option ArticleData)) (hperm : l1.Perm l2)
    (hnodup : (urlsOf l1).Nodup) :
    (runTasks fu cache l1).1 = (runTasks fu cache l2).1 := by
  unfold runTasks
  rw [foldl_taskStep_fst, foldl_taskStep_fst]
  exact foldl_taskCache_perm fu hperm cache hnodup

/-- C7 witness: two tasks with distinct urls merge to the same final cache
in either completion order. -/
theorem C7_concurrent_merge_amended_witness :
    (runTasks false emptyCache [some artA, some artC]).1
      = (runTasks false emptyCache [some artC, some artA]).1 :=
  C7_concurrent_merge_amended false emptyCache _ _ (List.Perm.swap _ _ _)
    (by decide)

/-- C8: in the _incremental_save merge, a non-null content or final_url
cell is never replaced by null: when the batch maps the row's redirect URL
to null or has no entry for it, the previously stored value is retained,
and a stored non-null value stays non-null after the merge. -/
theorem C8_incremental_save_monotone (cm : List (String × Option String))
    (rm : List (String × String)) (row : ContentRow) :
    ((dictFind cm row.redirect_url = none ∨
        dictFind cm row.redirect_url = some none) →
      (incrementalSaveRow cm rm row).content = row.content) ∧
    (dictFind rm row.redirect_url = none →
      (incrementalSaveRow cm rm row).final_url = row.final_url) ∧
    (row.content.isSome = true →
      ((incrementalSaveRow cm rm row).content).isSome = true) ∧
    (row.final_url.isSome = true →
      ((incrementalSaveRow cm rm row).final_url).isSome = true) := by
  refine ⟨?_, ?_, ?_, ?_⟩
  · rintro (h | h) <;>
      simp [incrementalSaveRow, combineFirstCell, mapContentCell, h]
  · intro h
    simp [incrementalSaveRow, combineFirstCell, mapFinalCell, h]
  · intro h
    rcases hm : mapContentCell cm row.redirect_url with _ | v <;>
      simp [incrementalSaveRow, combineFirstCell, hm, h]
  · intro h
    rcases hm : mapFinalCell rm row.redirect_url with _ | v <;>
      simp [incrementalSaveRow, combineFirstCell, hm, h]

/-- C8 witness: a row whose redirect URL the batch maps to null keeps its
stored content, and its non-null final_url stays non-null. -/
theorem C8_incremental_save_monotone_witness :
    (incrementalSaveRow [("/news/click/1/", none)] []
        ⟨"/news/click/1/", some "body", some "https://a.com/x"⟩).content
      = some "body" ∧
    ((incrementalSaveRow [("/news/click/1/", none)] []
        ⟨"/news/click/1/", some "body", some "https://a.com/x"⟩).final_url
      ).isSome = true := by
  constructor
  · exact (C8_incremental_save_monotone [("/news/click/1/", none)] []
      ⟨"/news/click/1/", some "body", some "https://a.com/x"⟩).1
      (Or.inr (by decide))
  · exact (C8_incremental_save_monotone [("/news/click/1/", none)] []
      ⟨"/news/click/1/", some "body", some "https://a.com/x"⟩).2.2.2
      (by decide)

/-- C9: _load_cache returns the empty cache for a missing file, an OSError
and malformed JSON, and the parsed mapping for a valid file, but a cache
file whose bytes are not valid UTF-8 makes json.load raise
UnicodeDecodeError, which the except (json.JSONDecodeError, OSError)
clause does not catch, so the load raises instead of returning the empty
cache as the claim and the function's own docstring state. -/
theorem C9_load_cache_behaviour :
    loadCache FsState.invalidUtf8 = Except.error PyError.unicodeDecodeError ∧
    loadCache FsState.missing = Except.ok [] ∧
    loadCache FsState.osErrorOnRead = Except.ok [] ∧
    loadCache FsState.invalidJson = Except.ok [] ∧
    (∀ d, loadCache (FsState.validJson d) = Except.ok d) :=
  ⟨rfl, rfl, rfl, rfl, fun _ => rfl⟩

end Cryptopanic
